import Mathlib

set_option maxRecDepth 100000

/-!
Verification of the document ingestion / chunking / summarization core of the
Financial-Services-Intelligence-Automation backend.

The Python sources embedded here (shallowly, as pure functions over `List Char`)
are:
  * `app/multi_agent/helpers/document_chunking_helper.py`
    (`DocumentChunkingHelper`, `DocumentChunk`, `ChunkingResult`)
  * `app/multi_agent/helpers/improved_pdf_extractor.py`
    (`ImprovedPDFExtractor`)
  * `app/multi_agent/services/text_service.py`
    (`TextSummaryService._extract_summary_from_response`)

Python strings are modelled as `List Char`; a function that can raise is
modelled as returning `Except (List Char) _` carrying the error message.
The external PDF library, the OCR engine and the Bedrock completion service
are external collaborators: they are modelled as oracle fields of an
environment structure (`PdfEnv`) resp. as function parameters, exactly at the
call boundaries where the Python code invokes them.

Modelling notes:
  * Python whitespace (`str.strip`, `str.split`, and `\s` of the `re` module)
    is modelled by `pyIsSpace`, covering the ASCII whitespace characters; the
    rarely-relevant non-ASCII Unicode whitespace is out of scope.
  * `\w` of the `re` module is modelled as ASCII alphanumeric plus underscore.
  * The class constants of `DocumentChunkingHelper` are collected in a
    configuration structure `ChunkCfg` whose defaults are the source values;
    the spec lists them as tunable configuration inputs.
  * `asyncio.gather` on an in-order task list returns results in task order,
    so the parallel orchestrator denotes to an in-order `List.map`; the
    semaphore and the rate-limit sleeps have no observable effect on the
    returned value and are not modelled.
-/

/-- Characters of a Lean string literal, used to transcribe Python string
literals. -/
def sLit (s : String) : List Char := s.data

/-- Python whitespace test (`str.isspace` / `\s` of `re`), ASCII fragment:
space, tab, newline, carriage return, vertical tab, form feed. -/
def pyIsSpace (c : Char) : Bool :=
  c = ' ' || c = '\t' || c = '\n' || c = '\r' || c = '\x0b' || c = '\x0c'

/-- `\w` of Python `re` (ASCII fragment): alphanumeric or underscore. -/
def pyIsWordChar (c : Char) : Bool :=
  c.isAlphanum || c = '_'

/-- Drop leading Python whitespace (`str.lstrip`). -/
def dropLeadingWs (l : List Char) : List Char :=
  l.dropWhile pyIsSpace

/-- Drop trailing Python whitespace (`str.rstrip`). -/
def dropTrailingWs (l : List Char) : List Char :=
  (l.reverse.dropWhile pyIsSpace).reverse

/-- Python `str.strip()`. -/
def pyStrip (l : List Char) : List Char :=
  dropTrailingWs (dropLeadingWs l)

/-- Python `str.lower()` (character-wise lowering). -/
def pyLower (l : List Char) : List Char :=
  l.map Char.toLower

/-- Fuel-driven worker for `pySplitWs`. -/
def pySplitWsGo : Nat → List Char → List (List Char)
  | 0, _ => []
  | _ + 1, [] => []
  | fuel + 1, l =>
    let l' := l.dropWhile pyIsSpace
    if l' = [] then []
    else l'.takeWhile (fun c => !pyIsSpace c) ::
      pySplitWsGo fuel (l'.dropWhile (fun c => !pyIsSpace c))

/-- Python `str.split()` with no argument: split on whitespace runs, dropping
empty pieces. -/
def pySplitWs (l : List Char) : List (List Char) :=
  pySplitWsGo (l.length + 1) l

/-- Decimal digits of a natural number (`str(n)` for naturals). -/
def natLit (n : Nat) : List Char :=
  Nat.toDigits 10 n

/-- Worker for `commaNat`: digits come reversed, a comma goes after every
three digits. -/
def commaRevGo : List Char → Nat → List Char
  | [], _ => []
  | c :: rest, k =>
    if k = 3 then ',' :: c :: commaRevGo rest 1
    else c :: commaRevGo rest (k + 1)

/-- Python `f"{n:,}"` on a natural number: decimal digits with thousands
separators. -/
def commaNat (n : Nat) : List Char :=
  (commaRevGo (natLit n).reverse 0).reverse

/-- Fuel-driven worker for `countOccurs`; `p` is assumed nonempty. -/
def countOccursGo (p : List Char) : Nat → List Char → Nat
  | 0, _ => 0
  | _ + 1, [] => 0
  | fuel + 1, s@(_ :: rest) =>
    if p.isPrefixOf s then 1 + countOccursGo p fuel (s.drop p.length)
    else countOccursGo p fuel rest

/-- Python `s.count(p)`: number of non-overlapping occurrences of `p` in `s`,
scanning left to right. -/
def countOccurs (p s : List Char) : Nat :=
  if p = [] then s.length + 1 else countOccursGo p (s.length + 1) s

/-- Substring test (`p in s` for Python strings), for nonempty `p`. -/
def containsSub (p : List Char) : List Char → Bool
  | [] => p.isPrefixOf ([] : List Char)
  | s@(_ :: rest) => p.isPrefixOf s || containsSub p rest

/-- Join a list of strings with a separator (`sep.join(xs)`). -/
def joinSep (sep : List Char) : List (List Char) → List Char
  | [] => []
  | [x] => x
  | x :: y :: t => x ++ sep ++ joinSep sep (y :: t)

/-- Generic fuel-driven splitter on a regex-match oracle: `matchFn l` returns
`some n` when a separator match of length `n ≥ 1` starts at the head of `l`.
Mirrors `re.split` (non-overlapping matches scanning left to right, empty
pieces kept). -/
def splitRegexGo (matchFn : List Char → Option Nat) : Nat → List Char → List Char → List (List Char)
  | 0, accRev, _ => [accRev.reverse]
  | _ + 1, accRev, [] => [accRev.reverse]
  | fuel + 1, accRev, l@(c :: rest) =>
    match matchFn l with
    | some n => accRev.reverse :: splitRegexGo matchFn fuel [] (l.drop n)
    | none => splitRegexGo matchFn fuel (c :: accRev) rest

/-- Index of the last `'\n'` in a list, if any. -/
def lastNewlineIdx (run : List Char) : Option Nat :=
  (run.reverse.findIdx? (· = '\n')).map (fun j => run.length - 1 - j)

/-- Match oracle for the compiled pattern `\n\s*\n` (the `paragraph_pattern`
of `DocumentChunkingHelper.__init__`): a leading `'\n'`, then the longest
whitespace stretch that still ends with a `'\n'` (greedy `\s*` with
backtracking to a final `'\n'`). -/
def paragraphMatch : List Char → Option Nat
  | '\n' :: r =>
    (lastNewlineIdx (r.takeWhile pyIsSpace)).map (fun k => k + 2)
  | _ => none

/-- Match oracle for the compiled pattern `[.!?]\s+` (the `sentence_pattern`
of `DocumentChunkingHelper.__init__`). -/
def sentenceMatch : List Char → Option Nat
  | c :: rest =>
    if c = '.' || c = '!' || c = '?' then
      let ws := rest.takeWhile pyIsSpace
      if ws = [] then none else some (1 + ws.length)
    else none
  | [] => none

/-- `self.paragraph_pattern.split(text)`. -/
def paragraphSplit (t : List Char) : List (List Char) :=
  splitRegexGo paragraphMatch (t.length + 1) [] t

/-- `self.sentence_pattern.split(text)`. -/
def sentenceSplit (t : List Char) : List (List Char) :=
  splitRegexGo sentenceMatch (t.length + 1) [] t

/-- `[\d\w\s]` of the `section_pattern`. -/
def sectionClassChar (c : Char) : Bool :=
  pyIsWordChar c || pyIsSpace c

/-- Fuel-driven scanner counting the matches `re.findall` finds for the
multiline pattern `^[\d\w\s]*[:\-]\s*` (the `section_pattern`): at each
line-start position take the maximal `[\d\w\s]` run, require a following
`':'` or `'-'`, then consume trailing whitespace greedily; on failure the
scan advances one character. -/
def sectionCountGo : Nat → Bool → List Char → Nat
  | 0, _, _ => 0
  | _ + 1, _, [] => 0
  | fuel + 1, atLineStart, l@(c :: rest) =>
    if atLineStart then
      let run := l.takeWhile sectionClassChar
      match l.drop run.length with
      | d :: rest2 =>
        if d = ':' || d = '-' then
          let ws := rest2.takeWhile pyIsSpace
          let nextLS := if ws = [] then false else ws.getLast? = some '\n'
          1 + sectionCountGo fuel nextLS (l.drop (run.length + 1 + ws.length))
        else sectionCountGo fuel (c = '\n') rest
      | [] => sectionCountGo fuel (c = '\n') rest
    else sectionCountGo fuel (c = '\n') rest

/-- `len(self.section_pattern.findall(text))`. -/
def sectionCount (t : List Char) : Nat :=
  sectionCountGo (t.length + 1) true t

/-- `DocumentChunk` dataclass of `document_chunking_helper.py`. -/
structure DocumentChunk where
  content : List Char
  chunk_id : Nat
  start_pos : Nat
  end_pos : Nat
  word_count : Nat
  char_count : Nat
  context_info : List Char
deriving DecidableEq, Repr

/-- `ChunkingResult` dataclass of `document_chunking_helper.py`. -/
structure ChunkingResult where
  chunks : List DocumentChunk
  total_chunks : Nat
  total_chars : Nat
  avg_chunk_size : Nat
  processing_strategy : List Char
deriving DecidableEq, Repr

/-- Class constants of `DocumentChunkingHelper`; the defaults are the source
values. The spec lists them among the tunable configuration inputs. -/
structure ChunkCfg where
  MAX_CHARS_PER_CHUNK : Nat := 504000
  OVERLAP_SIZE : Nat := 300
  LARGE_DOCUMENT_THRESHOLD : Nat := 100000
  PARALLEL_THRESHOLD : Nat := 5

/-- The default configuration: exactly the constants of the source class. -/
def defaultCfg : ChunkCfg := {}

/-- `DocumentChunkingHelper._create_chunk`. -/
def create_chunk (content : List Char) (chunk_id start_pos : Nat) (chunk_type : List Char) : DocumentChunk :=
  let c := pyStrip content
  { content := c
    chunk_id := chunk_id
    start_pos := start_pos
    end_pos := start_pos + c.length
    word_count := (pySplitWs c).length
    char_count := c.length
    context_info := chunk_type ++ sLit " chunk " ++ natLit (chunk_id + 1) }

/-- `sum(len(p) for p in pieces[:i])`. -/
def prefixLenSum (pieces : List (List Char)) (i : Nat) : Nat :=
  ((pieces.take i).map List.length).sum

/-- The greedy accumulation loop shared by `_chunk_by_structure` and
`_chunk_by_sentences` (they differ only in the split pieces, the join
separator and the chunk-type label). State: enumeration index `i`, the
running `current_chunk`, its `start_pos`, and the chunks accumulated so
far. -/
def chunkLoopGo (maxChars : Nat) (sep ctype : List Char) (allPieces : List (List Char)) :
    Nat → List Char → Nat → List DocumentChunk → List (List Char) → List DocumentChunk
  | _, current, start, acc, [] =>
    if current = [] then acc
    else acc ++ [create_chunk current acc.length start ctype]
  | i, current, start, acc, p :: rest =>
    if current.length + p.length > maxChars ∧ current ≠ [] then
      chunkLoopGo maxChars sep ctype allPieces (i + 1) p (prefixLenSum allPieces i)
        (acc ++ [create_chunk current acc.length start ctype]) rest
    else
      chunkLoopGo maxChars sep ctype allPieces (i + 1)
        (if current = [] then p else current ++ sep ++ p)
        (if current = [] then prefixLenSum allPieces i else start)
        acc rest

/-- Entry into the greedy loop with the initial Python state. -/
def chunkLoop (maxChars : Nat) (sep ctype : List Char) (pieces : List (List Char)) : List DocumentChunk :=
  chunkLoopGo maxChars sep ctype pieces 0 [] 0 [] pieces

/-- `[p.strip() for p in self.paragraph_pattern.split(text) if p.strip()]`. -/
def structPieces (t : List Char) : List (List Char) :=
  ((paragraphSplit t).map pyStrip).filter (· ≠ [])

/-- `[s.strip() for s in self.sentence_pattern.split(text) if s.strip()]`. -/
def sentencePieces (t : List Char) : List (List Char) :=
  ((sentenceSplit t).map pyStrip).filter (· ≠ [])

/-- `DocumentChunkingHelper._chunk_by_structure`. -/
def chunk_by_structure (cfg : ChunkCfg) (t : List Char) : List DocumentChunk :=
  chunkLoop cfg.MAX_CHARS_PER_CHUNK (sLit "\n\n") (sLit "Structure") (structPieces t)

/-- `DocumentChunkingHelper._chunk_by_sentences`. -/
def chunk_by_sentences (cfg : ChunkCfg) (t : List Char) : List DocumentChunk :=
  chunkLoop cfg.MAX_CHARS_PER_CHUNK (sLit ". ") (sLit "Simple") (sentencePieces t)

/-- `DocumentChunkingHelper._has_structure`. -/
def has_structure (t : List Char) : Bool :=
  decide ((paragraphSplit t).length ≥ 3) && decide (sectionCount t ≥ 2)

/-- `DocumentChunkingHelper.should_chunk_document`. -/
def should_chunk_document (cfg : ChunkCfg) (t : List Char) : Bool :=
  !t.isEmpty && decide ((pyStrip t).length > cfg.LARGE_DOCUMENT_THRESHOLD)

/-- The `ChunkingResult(...)` constructor call of `chunk_document` in the
chunked branch; an empty chunk list would make `avg_chunk_size` raise
`ZeroDivisionError`, modelled as an `.error`. -/
def mkChunkingResult (chunks : List DocumentChunk) (strategy : List Char) :
    Except (List Char) ChunkingResult :=
  if chunks = [] then .error (sLit "integer division or modulo by zero")
  else
    .ok { chunks := chunks
          total_chunks := chunks.length
          total_chars := (chunks.map DocumentChunk.char_count).sum
          avg_chunk_size := (chunks.map DocumentChunk.char_count).sum / chunks.length
          processing_strategy := strategy }

/-- The single-chunk result for small documents. -/
def singleChunkResult (t : List Char) : ChunkingResult :=
  { chunks := [{ content := t, chunk_id := 0, start_pos := 0, end_pos := t.length,
                 word_count := (pySplitWs t).length, char_count := t.length,
                 context_info := sLit "Single chunk" }]
    total_chunks := 1
    total_chars := t.length
    avg_chunk_size := t.length
    processing_strategy := sLit "single_chunk" }

/-- `DocumentChunkingHelper.chunk_document`. The `.error` results model the
two ways the Python raises: the explicit `ValueError` on falsy input, and the
`ZeroDivisionError` that `avg_chunk_size` would hit on an empty chunk list. -/
def chunk_document (cfg : ChunkCfg) (text : List Char) (preserve_structure : Bool) :
    Except (List Char) ChunkingResult :=
  if text = [] then .error (sLit "Input text cannot be empty")
  else if should_chunk_document cfg (pyStrip text) then
    if preserve_structure && has_structure (pyStrip text) then
      mkChunkingResult (chunk_by_structure cfg (pyStrip text)) (sLit "structure_aware")
    else
      mkChunkingResult (chunk_by_sentences cfg (pyStrip text)) (sLit "simple_chunking")
  else .ok (singleChunkResult (pyStrip text))

/-- A dynamically-typed Python value as far as the response adapters look at
it: either a string, or some non-string value together with its `str(...)`
rendering. -/
inductive PyVal where
  | str : List Char → PyVal
  | nonStr : List Char → PyVal
deriving DecidableEq, Repr

/-- The shapes of a completion-service response the adapters can meet:
an object with a `content` attribute, a plain string, a dict (entries plus
the `str(...)` rendering of the whole dict), or anything else (with its
`str(...)` rendering). -/
inductive Response where
  | objContent : PyVal → Response
  | plainStr : List Char → Response
  | dict : List (List Char × PyVal) → List Char → Response
  | other : List Char → Response
deriving DecidableEq, Repr

/-- Python `d.get(key)` on a dict modelled as an association list. -/
def pyGet (entries : List (List Char × PyVal)) (key : List Char) : Option PyVal :=
  (entries.find? (fun kv => kv.1 = key)).map Prod.snd

/-- The body of the `try` in `_extract_response_text`: `.strip()` on a
non-string raises (`.error`), every other path returns a string. -/
def extractResponseInner : Response → Except Unit (List Char)
  | .objContent (.str s) => .ok (pyStrip s)
  | .objContent (.nonStr _) => .error ()
  | .plainStr s => .ok (pyStrip s)
  | .dict entries rep =>
    match pyGet entries (sLit "content") with
    | some (.str s) => .ok (pyStrip s)
    | some (.nonStr _) => .error ()
    | none => .ok (pyStrip rep)
  | .other rep => .ok (pyStrip rep)

/-- `DocumentChunkingHelper._extract_response_text` (identical in shape to
`TextSummaryService._extract_summary_from_response` up to the fallback
string): total, every exception is caught and replaced by a fixed error
string. -/
def extract_response_text (r : Response) : List Char :=
  match extractResponseInner r with
  | .ok s => s
  | .error _ => sLit "Lỗi trích xuất response"

/-- `self.summary_instructions.get(summary_type, default)`. -/
def summaryInstruction (summary_type dflt : List Char) : List Char :=
  if summary_type = sLit "general" then sLit "tóm tắt nội dung chính"
  else if summary_type = sLit "bullet_points" then sLit "liệt kê các điểm chính dưới dạng bullet points"
  else if summary_type = sLit "key_insights" then sLit "trích xuất những thông tin quan trọng nhất"
  else if summary_type = sLit "executive_summary" then sLit "tóm tắt ngắn gọn cho lãnh đạo"
  else if summary_type = sLit "detailed" then sLit "tóm tắt chi tiết nhưng súc tích"
  else dflt

/-- `DocumentChunkingHelper._create_chunk_prompt`. -/
def create_chunk_prompt (chunk : DocumentChunk) (summary_type language : List Char) : List Char :=
  let instruction := summaryInstruction summary_type (sLit "tóm tắt nội dung")
  sLit "Bạn là chuyên gia tóm tắt. Hãy " ++ instruction ++ sLit " cho phần " ++
    natLit (chunk.chunk_id + 1) ++
    sLit ":\n\nYÊU CẦU:\n- Ngôn ngữ: " ++ language ++
    sLit "\n- Độ dài: 150-200 từ\n- Giữ thông tin quan trọng và số liệu\n\n" ++
    chunk.context_info ++
    sLit "\n\nNỘI DUNG:\n" ++ chunk.content ++ sLit "\n\nTÓM TẮT:"

/-- `DocumentChunkingHelper._create_final_prompt`. -/
def create_final_prompt (combined summary_type : List Char) (max_length : Nat)
    (language : List Char) (num_parts original_length : Nat) : List Char :=
  let _instruction := summaryInstruction summary_type (sLit "tóm tắt toàn bộ")
  sLit "Tóm tắt cuối cùng từ " ++ natLit num_parts ++ sLit " phần (" ++
    commaNat original_length ++
    sLit " ký tự):\n\nYÊU CẦU:\n- Ngôn ngữ: " ++ language ++
    sLit "\n- Độ dài: tối đa " ++ natLit max_length ++
    sLit " từ\n- Thống nhất, mạch lạc\n- Loại bỏ trùng lặp\n\n" ++ combined ++
    sLit "\n\nTÓM TẮT CUỐI:"

/-- The per-chunk body of `_process_parallel.process_chunk`: prompt the
service, extract the text, and on any exception substitute the placeholder
`"[Lỗi chunk {chunk.chunk_id}: {e}]"`. -/
def processOneParallel (svc : List Char → Except (List Char) Response)
    (summary_type language : List Char) (chunk : DocumentChunk) : List Char :=
  match svc (create_chunk_prompt chunk summary_type language) with
  | .ok resp => extract_response_text resp
  | .error e => sLit "[Lỗi chunk " ++ natLit chunk.chunk_id ++ sLit ": " ++ e ++ sLit "]"

/-- `DocumentChunkingHelper._process_parallel`: `asyncio.gather` over the
in-order task list returns the per-task results in task order. -/
def process_parallel (chunks : List DocumentChunk) (svc : List Char → Except (List Char) Response)
    (summary_type language : List Char) : List (List Char) :=
  chunks.map (processOneParallel svc summary_type language)

/-- The per-chunk body of `_process_sequential` at loop index `i`; the
placeholder uses the loop index, not the chunk id. -/
def processOneSequential (svc : List Char → Except (List Char) Response)
    (summary_type language : List Char) (i : Nat) (chunk : DocumentChunk) : List Char :=
  match svc (create_chunk_prompt chunk summary_type language) with
  | .ok resp => extract_response_text resp
  | .error e => sLit "[Lỗi chunk " ++ natLit i ++ sLit ": " ++ e ++ sLit "]"

/-- The `for i, chunk in enumerate(chunks)` loop of `_process_sequential`
(the rate-limit sleep does not affect the returned value). -/
def processSequentialGo (svc : List Char → Except (List Char) Response)
    (summary_type language : List Char) : Nat → List DocumentChunk → List (List Char)
  | _, [] => []
  | i, c :: rest =>
    processOneSequential svc summary_type language i c ::
      processSequentialGo svc summary_type language (i + 1) rest

/-- `DocumentChunkingHelper._process_sequential`. -/
def process_sequential (chunks : List DocumentChunk) (svc : List Char → Except (List Char) Response)
    (summary_type language : List Char) : List (List Char) :=
  processSequentialGo svc summary_type language 0 chunks

/-- `DocumentChunkingHelper.process_chunks_with_bedrock` (strategy choice by
chunk count; `max_parallel` only bounds concurrency and has no effect on the
returned value). -/
def process_chunks_with_bedrock (cfg : ChunkCfg) (chunks : List DocumentChunk)
    (svc : List Char → Except (List Char) Response) (summary_type language : List Char) :
    List (List Char) :=
  if chunks = [] then []
  else if chunks.length ≤ cfg.PARALLEL_THRESHOLD then
    process_parallel chunks svc summary_type language
  else
    process_sequential chunks svc summary_type language

/-- The filter of `create_final_summary`:
`[s for s in chunk_summaries if s and not s.startswith("[Lỗi")]`. -/
def validSummaries (chunk_summaries : List (List Char)) : List (List Char) :=
  chunk_summaries.filter (fun s => !s.isEmpty && !(sLit "[Lỗi").isPrefixOf s)

/-- The labelled parts `f"Phần {i+1}: {s}"` of the `combined` join. -/
def labelPartsGo : Nat → List (List Char) → List (List Char)
  | _, [] => []
  | i, s :: rest => (sLit "Phần " ++ natLit (i + 1) ++ sLit ": " ++ s) :: labelPartsGo (i + 1) rest

/-- `"\n\n".join([f"Phần {i+1}: {s}" for i, s in enumerate(valid_summaries)])`. -/
def combinedSummaries (valid : List (List Char)) : List Char :=
  joinSep (sLit "\n\n") (labelPartsGo 0 valid)

/-- `DocumentChunkingHelper.create_final_summary`. -/
def create_final_summary (chunk_summaries : List (List Char))
    (svc : List Char → Except (List Char) Response) (summary_type : List Char)
    (max_length : Nat) (language : List Char) (original_text_length : Nat) : List Char :=
  if validSummaries chunk_summaries = [] then sLit "Không thể tạo tóm tắt do lỗi xử lý."
  else
    match svc (create_final_prompt (combinedSummaries (validSummaries chunk_summaries))
        summary_type max_length language (validSummaries chunk_summaries).length
        original_text_length) with
    | .ok resp => extract_response_text resp
    | .error _ =>
      if (combinedSummaries (validSummaries chunk_summaries)).length > max_length * 5 then
        (combinedSummaries (validSummaries chunk_summaries)).take (max_length * 5) ++ sLit "..."
      else combinedSummaries (validSummaries chunk_summaries)

/-- The analysis dict built by `_analyze_pdf_content`. -/
structure PdfAnalysis where
  has_images : Bool
  has_text : Bool
  needs_ocr : Bool
  total_pages : Nat
deriving DecidableEq, Repr

/-- The dict returned by `LightweightOCR.extract_text_from_pdf` (the fields
the extractor reads). -/
structure OcrOutcome where
  success : Bool
  text : List Char
deriving DecidableEq, Repr

/-- The dict returned by `ImprovedPDFExtractor.extract_text_from_pdf`. -/
structure ExtractionResult where
  text : List Char
  source : List Char
  method : List Char
  pages_processed : List Char
  char_count : Nat
deriving DecidableEq, Repr

/-- Oracle environment for one `extract_text_from_pdf(file_content, max_pages)`
call: the outcomes of the external PyPDF2 / OCR interactions for these bytes.
`methodN` is what PyPDF2 extraction method `N` returns (or the exception it
raises); `pageScan` gives the `(has_images, has_text, total_pages)` facts the
first-pages scan of `_analyze_pdf_content` observes (or its reader
exception); `ocrImportAvailable` is whether `LightweightOCR` can be imported;
`ocrCall` the outcome of the lightweight-OCR invocation; `diagScan` the
`(page count, encryption flag)` the diagnostic reader sees (or its
exception). -/
structure PdfEnv where
  method1 : Except (List Char) (List Char)
  method2 : Except (List Char) (List Char)
  method3 : Except (List Char) (List Char)
  pageScan : Except (List Char) (Bool × Bool × Nat)
  ocrImportAvailable : Bool
  ocrCall : Except (List Char) OcrOutcome
  diagScan : Except (List Char) (Nat × Bool)
  fileSize : Nat
  maxPages : Option Nat
deriving Repr

/-- `ImprovedPDFExtractor.MIN_TEXT_LENGTH`. -/
def MIN_TEXT_LENGTH : Nat := 100

/-- The metadata token list of `_is_metadata_only`. -/
def metadataPatterns : List (List Char) :=
  [sLit "filter:", sLit "flatedecode", sLit "flatdecodefilter", sLit "dctdecode",
   sLit "ascii85decode", sLit "lzwdecode", sLit "runlengthdecode", sLit "/filter",
   sLit "/length", sLit "/type", sLit "stream", sLit "endstream", sLit "obj", sLit "endobj"]

/-- `sum(text_lower.count(pattern) * len(pattern) for pattern in metadata_patterns)`. -/
def weightedMetadataCount (t : List Char) : Nat :=
  (metadataPatterns.map (fun p => countOccurs p t * p.length)).sum

/-- `ImprovedPDFExtractor._is_metadata_only`. The float comparison
`metadata_chars / len(text) > 0.7` is modelled exactly over the rationals as
`10 * metadata_chars > 7 * len(text)`. -/
def is_metadata_only (text : List Char) : Bool :=
  if text = [] then true
  else decide (10 * weightedMetadataCount (pyStrip (pyLower text)) > 7 * text.length)

/-- `ImprovedPDFExtractor._is_valid_text`. -/
def is_valid_text (text : List Char) : Bool :=
  !text.isEmpty && decide ((pyStrip text).length > MIN_TEXT_LENGTH) && !is_metadata_only text

/-- The validity predicate in the words of the spec (claim C4): accept iff
the stripped length strictly exceeds 100 and the text is not metadata-only,
where metadata-only means the token-length-weighted occurrence count computed
on the lowercased text exceeds 70% of the total text length. -/
def is_valid_text_spec (text : List Char) : Bool :=
  decide ((pyStrip text).length > 100) &&
    !decide (10 * weightedMetadataCount (pyLower text) > 7 * text.length)

/-- Characters removed by `.replace('\x00', '').replace('\ufffd', '')`. -/
def cleanKeepChar (c : Char) : Bool :=
  c ≠ '\x00' && c ≠ '\uFFFD'

/-- Fuel-driven scanner for `re.sub(r'\s+', ' ', text)`. -/
def collapseWsRunsGo : Nat → List Char → List Char
  | 0, _ => []
  | _ + 1, [] => []
  | fuel + 1, c :: rest =>
    if pyIsSpace c then ' ' :: collapseWsRunsGo fuel (rest.dropWhile pyIsSpace)
    else c :: collapseWsRunsGo fuel rest

/-- `re.sub(r'\s+', ' ', text)`. -/
def collapseWsRuns (l : List Char) : List Char :=
  collapseWsRunsGo (l.length + 1) l

/-- `re.sub(r'\r\n|\r|\n', '\n', text)`. -/
def normalizeNewlines : List Char → List Char
  | [] => []
  | '\r' :: '\n' :: rest => '\n' :: normalizeNewlines rest
  | '\r' :: rest => '\n' :: normalizeNewlines rest
  | c :: rest => c :: normalizeNewlines rest

/-- Fuel-driven scanner for `re.sub(r'\n{3,}', '\n\n', text)`. -/
def collapseBlankLinesGo : Nat → List Char → List Char
  | 0, _ => []
  | _ + 1, [] => []
  | fuel + 1, l@(c :: rest) =>
    if c = '\n' then
      let run := l.takeWhile (· = '\n')
      (if run.length ≥ 3 then ['\n', '\n'] else run) ++
        collapseBlankLinesGo fuel (l.drop run.length)
    else c :: collapseBlankLinesGo fuel rest

/-- `re.sub(r'\n{3,}', '\n\n', text)`. -/
def collapseBlankLines (l : List Char) : List Char :=
  collapseBlankLinesGo (l.length + 1) l

/-- `ImprovedPDFExtractor._clean_extracted_text`. -/
def clean_extracted_text (text : List Char) : List Char :=
  if text = [] then []
  else
    pyStrip (collapseBlankLines (normalizeNewlines ((collapseWsRuns text).filter cleanKeepChar)))

/-- `ImprovedPDFExtractor._try_pypdf_methods`: try the three PyPDF2 methods
in order, swallowing per-method exceptions, returning the cleaned text of the
first valid result, else the empty string. -/
def tryMethodList : List (Except (List Char) (List Char)) → List Char
  | [] => []
  | m :: rest =>
    match m with
    | .error _ => tryMethodList rest
    | .ok t => if is_valid_text t then clean_extracted_text t else tryMethodList rest

/-- `ImprovedPDFExtractor._try_pypdf_methods` on the oracle environment. -/
def try_pypdf_methods (env : PdfEnv) : List Char :=
  tryMethodList [env.method1, env.method2, env.method3]

/-- `ImprovedPDFExtractor._analyze_pdf_content`:
`needs_ocr = has_images or not has_text`. -/
def analyze_pdf_content (env : PdfEnv) : Except (List Char) PdfAnalysis :=
  match env.pageScan with
  | .error e => .error e
  | .ok (hi, ht, tp) => .ok { has_images := hi, has_text := ht, needs_ocr := hi || !ht, total_pages := tp }

/-- The inline fallback message `_perform_ocr_extraction` returns when OCR is
unavailable or fails. -/
def fallbackOcrMessage (a : PdfAnalysis) (fileSize : Nat) : List Char :=
  sLit "[PDF chứa hình ảnh - cần OCR]\n\nTài liệu này có vẻ là PDF được tạo từ scan hoặc chứa chủ yếu hình ảnh.\nOCR không khả dụng hoặc thất bại.\n\nThông tin PDF:\n- Số trang: " ++
    natLit a.total_pages ++
    sLit "\n- Kích thước: " ++ commaNat fileSize ++
    sLit " bytes\n- Chứa hình ảnh: " ++ (if a.has_images then sLit "Có" else sLit "Không") ++
    sLit "\n- Chứa text: " ++ (if a.has_text then sLit "Có" else sLit "Không") ++
    sLit "\n\nGợi ý:\n1. Cài đặt OCR: pip install easyocr pdf2image\n2. Sử dụng công cụ OCR như Adobe Acrobat, Google Drive OCR\n3. Chuyển đổi PDF sang định dạng khác\n4. Sử dụng dịch vụ OCR online\n"

/-- `ImprovedPDFExtractor._perform_ocr_extraction`: an `ImportError` (OCR
runtime unavailable), an OCR exception, or an unsuccessful/empty OCR result
all fall through to the inline fallback message — a successful-looking
string, not an exception. -/
def perform_ocr_extraction (env : PdfEnv) (a : PdfAnalysis) : List Char :=
  if env.ocrImportAvailable then
    match env.ocrCall with
    | .ok res =>
      if res.success && !(pyStrip res.text).isEmpty then res.text
      else fallbackOcrMessage a env.fileSize
    | .error _ => fallbackOcrMessage a env.fileSize
  else fallbackOcrMessage a env.fileSize

/-- `ImprovedPDFExtractor._extract_with_basic_ocr_fallback` (an analysis
exception propagates to the caller). -/
def extract_with_basic_ocr_fallback (env : PdfEnv) : Except (List Char) (List Char) :=
  match analyze_pdf_content env with
  | .error e => .error e
  | .ok a => .ok (if a.needs_ocr then perform_ocr_extraction env a else [])

/-- `ImprovedPDFExtractor._try_ocr_extraction`: exceptions and invalid text
both collapse to the empty string. -/
def try_ocr_extraction (env : PdfEnv) : List Char :=
  match extract_with_basic_ocr_fallback env with
  | .error _ => []
  | .ok t => if is_valid_text t then clean_extracted_text t else []

/-- The body of `_get_diagnostic_info` (its own reader failure is caught and
rendered inline). -/
def diagnosticInfo (env : PdfEnv) : List Char :=
  match env.diagScan with
  | .ok (pages, enc) =>
    sLit "\nThông tin chẩn đoán PDF:\n- Số trang: " ++ natLit pages ++
      sLit "\n- Kích thước file: " ++ commaNat env.fileSize ++
      sLit " bytes\n- Mã hóa: " ++ (if enc then sLit "Có" else sLit "Không") ++
      sLit "\n\nKhả năng nguyên nhân:\n1. PDF được tạo từ scan/hình ảnh (cần OCR)\n2. PDF sử dụng font đặc biệt hoặc encoding không hỗ trợ\n3. PDF có cấu trúc phức tạp (form, table đặc biệt)\n\nGợi ý giải pháp:\n- Thử chuyển đổi PDF sang định dạng khác (Word, Text)\n- Sử dụng công cụ OCR nếu là PDF scan\n- Kiểm tra PDF có mở được bình thường không\n"
  | .error e => sLit "Không thể phân tích PDF: " ++ e

/-- `ImprovedPDFExtractor._generate_error_message`. -/
def generate_error_message (env : PdfEnv) : List Char :=
  sLit "Không thể trích xuất text từ PDF.\n" ++ diagnosticInfo env

/-- The `pages_processed` field value: `max_pages or 'all'` (note `0` is
falsy). -/
def pagesProcessedStr : Option Nat → List Char
  | some n => if n = 0 then sLit "all" else natLit n
  | none => sLit "all"

/-- `ImprovedPDFExtractor.extract_text_from_pdf`: PyPDF2 cascade, then OCR,
else a `ValueError` carrying the diagnostic message. -/
def extract_text_from_pdf (env : PdfEnv) : Except (List Char) ExtractionResult :=
  if !(try_pypdf_methods env).isEmpty && is_valid_text (try_pypdf_methods env) then
    .ok { text := try_pypdf_methods env, source := sLit "pypdf2",
          method := sLit "PyPDF2 text extraction",
          pages_processed := pagesProcessedStr env.maxPages,
          char_count := (try_pypdf_methods env).length }
  else if try_ocr_extraction env ≠ [] then
    .ok { text := try_ocr_extraction env, source := sLit "ocr",
          method := sLit "Tesseract OCR",
          pages_processed := pagesProcessedStr env.maxPages,
          char_count := (try_ocr_extraction env).length }
  else .error (generate_error_message env)

/-- The pure content-grouping the greedy chunk loop performs: which split
pieces end up joined (with `sep`) in which chunk. Used to characterize
`chunkLoopGo`. -/
def groupPieces (maxChars : Nat) (sep : List Char) : List Char → List (List Char) → List (List Char)
  | cur, [] => if cur = [] then [] else [cur]
  | cur, p :: rest =>
    if cur.length + p.length > maxChars ∧ cur ≠ [] then
      cur :: groupPieces maxChars sep p rest
    else
      groupPieces maxChars sep (if cur = [] then p else cur ++ sep ++ p) rest

/-- A nonempty string with non-whitespace first and last characters (the
shape of every stripped nonempty piece). -/
def NoEdgeWs (l : List Char) : Prop :=
  l ≠ [] ∧ (∀ c, l.head? = some c → pyIsSpace c = false) ∧
    (∀ c, l.getLast? = some c → pyIsSpace c = false)

/-- Default chunk value used with `List.getD`. -/
def dummyChunk : DocumentChunk :=
  { content := [], chunk_id := 0, start_pos := 0, end_pos := 0,
    word_count := 0, char_count := 0, context_info := [] }

/-- A concrete first chunk for orchestrator witnesses. -/
def chunkA : DocumentChunk :=
  { content := sLit "alpha", chunk_id := 0, start_pos := 0, end_pos := 5,
    word_count := 1, char_count := 5, context_info := sLit "Simple chunk 1" }

/-- A concrete second chunk for orchestrator witnesses. -/
def chunkB : DocumentChunk :=
  { content := sLit "beta", chunk_id := 1, start_pos := 5, end_pos := 9,
    word_count := 1, char_count := 4, context_info := sLit "Simple chunk 2" }

/-- A completion service that raises exactly on chunk B's prompt. -/
def svcFailB : List Char → Except (List Char) Response := fun p =>
  if p = create_chunk_prompt chunkB (sLit "general") (sLit "vietnamese") then
    .error (sLit "boom")
  else .ok (.plainStr (sLit "ok"))

/-- A completion service that always raises. -/
def svcFailAll : List Char → Except (List Char) Response := fun _ =>
  .error (sLit "fail")

/-- Oracle environment of a scanned, image-only PDF processed while the
lightweight-OCR dependency cannot be imported: every PyPDF2 method returns
empty text and the first-pages scan sees images but no text. -/
def pdfEnvNoOcr : PdfEnv :=
  { method1 := .ok [], method2 := .ok [], method3 := .ok [],
    pageScan := .ok (true, false, 3), ocrImportAvailable := false,
    ocrCall := .error [], diagScan := .ok (3, false), fileSize := 500, maxPages := none }

/-- Oracle environment where every strategy, the page scan and OCR all
raise. -/
def pdfEnvAllFail : PdfEnv :=
  { method1 := .error (sLit "bad xref"), method2 := .error (sLit "bad xref"),
    method3 := .error (sLit "No pages could be extracted"),
    pageScan := .error (sLit "EOF marker not found"), ocrImportAvailable := false,
    ocrCall := .error [], diagScan := .error (sLit "EOF marker not found"),
    fileSize := 7, maxPages := none }

/-! ### Basic lemmas about the string primitives -/

theorem dropWhile_length_le (p : Char → Bool) (l : List Char) :
    (l.dropWhile p).length ≤ l.length := by
  induction l with
  | nil => simp
  | cons c t ih =>
    rw [List.dropWhile_cons]
    split
    · exact ih.trans (Nat.le_succ _)
    · simp

theorem pyStrip_length_le (l : List Char) : (pyStrip l).length ≤ l.length := by
  unfold pyStrip dropTrailingWs dropLeadingWs
  calc (((l.dropWhile pyIsSpace).reverse.dropWhile pyIsSpace).reverse).length
      = ((l.dropWhile pyIsSpace).reverse.dropWhile pyIsSpace).length := List.length_reverse _
    _ ≤ (l.dropWhile pyIsSpace).reverse.length := dropWhile_length_le _ _
    _ = (l.dropWhile pyIsSpace).length := List.length_reverse _
    _ ≤ l.length := dropWhile_length_le _ _

theorem pyStrip_of_allWs (l : List Char) (h : ∀ c ∈ l, pyIsSpace c = true) :
    pyStrip l = [] := by
  have h1 : dropLeadingWs l = [] := List.dropWhile_eq_nil_iff.mpr h
  simp [pyStrip, h1, dropTrailingWs]

/-! ### C9: result totals -/

theorem mkChunkingResult_ok {cs : List DocumentChunk} {st : List Char} {r : ChunkingResult}
    (h : mkChunkingResult cs st = .ok r) :
    r = { chunks := cs, total_chunks := cs.length,
          total_chars := (cs.map DocumentChunk.char_count).sum,
          avg_chunk_size := (cs.map DocumentChunk.char_count).sum / cs.length,
          processing_strategy := st } := by
  unfold mkChunkingResult at h
  split at h
  · cases h
  · cases h; rfl

/-- C9: whenever `chunk_document` returns successfully, `total_chars` equals
the sum of the chunks' `char_count` values and `total_chunks` equals the
length of the chunk list. -/
theorem chunking_result_totals (cfg : ChunkCfg) (text : List Char) (ps : Bool)
    (r : ChunkingResult) (hr : chunk_document cfg text ps = .ok r) :
    r.total_chars = (r.chunks.map DocumentChunk.char_count).sum ∧
      r.total_chunks = r.chunks.length := by
  unfold chunk_document at hr
  split at hr
  · cases hr
  · split at hr
    · split at hr
      · rw [mkChunkingResult_ok hr]; simp
      · rw [mkChunkingResult_ok hr]; simp
    · cases hr
      simp [singleChunkResult]

/-- Witness for C9 at a concrete small document. -/
theorem chunking_result_totals_witness :
    (singleChunkResult (sLit "hello world")).total_chars =
        ((singleChunkResult (sLit "hello world")).chunks.map DocumentChunk.char_count).sum ∧
      (singleChunkResult (sLit "hello world")).total_chunks =
        (singleChunkResult (sLit "hello world")).chunks.length :=
  chunking_result_totals defaultCfg (sLit "hello world") true _ (by rfl)

/-! ### C3: small-document passthrough, and C8: empty/whitespace input -/

/-- C3: for nonempty input whose stripped length does not exceed the
large-document threshold, `chunk_document` returns exactly one chunk of
strategy `single_chunk` whose content is the stripped input, with
`chunk_id = 0`, `start_pos = 0` and `end_pos` the stripped length. -/
theorem chunk_document_small_doc (cfg : ChunkCfg) (text : List Char) (ps : Bool)
    (hne : text ≠ []) (hlen : (pyStrip text).length ≤ cfg.LARGE_DOCUMENT_THRESHOLD) :
    chunk_document cfg text ps = .ok
      { chunks := [{ content := pyStrip text, chunk_id := 0, start_pos := 0,
                     end_pos := (pyStrip text).length,
                     word_count := (pySplitWs (pyStrip text)).length,
                     char_count := (pyStrip text).length,
                     context_info := sLit "Single chunk" }],
        total_chunks := 1, total_chars := (pyStrip text).length,
        avg_chunk_size := (pyStrip text).length,
        processing_strategy := sLit "single_chunk" } := by
  have hsc : should_chunk_document cfg (pyStrip text) = false := by
    have h2 := pyStrip_length_le (pyStrip text)
    simp only [should_chunk_document, Bool.and_eq_false_iff, decide_eq_false_iff_not, not_lt]
    right
    omega
  unfold chunk_document
  rw [if_neg hne, hsc]
  rfl

/-- Witness for C3 at `"hello"` under the default configuration. -/
theorem chunk_document_small_doc_witness :
    chunk_document defaultCfg (sLit "hello") true = .ok
      { chunks := [{ content := pyStrip (sLit "hello"), chunk_id := 0, start_pos := 0,
                     end_pos := (pyStrip (sLit "hello")).length,
                     word_count := (pySplitWs (pyStrip (sLit "hello"))).length,
                     char_count := (pyStrip (sLit "hello")).length,
                     context_info := sLit "Single chunk" }],
        total_chunks := 1, total_chars := (pyStrip (sLit "hello")).length,
        avg_chunk_size := (pyStrip (sLit "hello")).length,
        processing_strategy := sLit "single_chunk" } :=
  chunk_document_small_doc defaultCfg (sLit "hello") true (by decide) (by decide)

/-- C8 is false as stated: the single-space input is whitespace-only, yet
`chunk_document` does not raise — it returns a chunk whose content is
empty. -/
theorem chunk_document_whitespace_counterexample :
    (chunk_document defaultCfg (sLit " ") true).toOption =
      some { chunks := [{ content := [], chunk_id := 0, start_pos := 0, end_pos := 0,
                          word_count := 0, char_count := 0,
                          context_info := sLit "Single chunk" }],
             total_chunks := 1, total_chars := 0, avg_chunk_size := 0,
             processing_strategy := sLit "single_chunk" } := by decide

/-- C8 amended: only the empty string raises `ValueError`; a nonempty
whitespace-only input instead yields a single-chunk result whose chunk has
empty content. -/
theorem chunk_document_empty_input (cfg : ChunkCfg) (ps : Bool) (w : List Char)
    (hw : ∀ c ∈ w, pyIsSpace c = true) :
    chunk_document cfg [] ps = .error (sLit "Input text cannot be empty") ∧
      (w ≠ [] → chunk_document cfg w ps = .ok
        { chunks := [{ content := [], chunk_id := 0, start_pos := 0, end_pos := 0,
                       word_count := 0, char_count := 0,
                       context_info := sLit "Single chunk" }],
          total_chunks := 1, total_chars := 0, avg_chunk_size := 0,
          processing_strategy := sLit "single_chunk" }) := by
  refine ⟨rfl, fun hne => ?_⟩
  have hs : pyStrip w = [] := pyStrip_of_allWs w hw
  unfold chunk_document
  rw [if_neg hne, hs]
  rfl

/-- Witness for the amended C8 at the tab-space input. -/
theorem chunk_document_empty_input_witness :
    chunk_document defaultCfg [] true = .error (sLit "Input text cannot be empty") ∧
      chunk_document defaultCfg (sLit "\t ") true = .ok
        { chunks := [{ content := [], chunk_id := 0, start_pos := 0, end_pos := 0,
                       word_count := 0, char_count := 0,
                       context_info := sLit "Single chunk" }],
          total_chunks := 1, total_chars := 0, avg_chunk_size := 0,
          processing_strategy := sLit "single_chunk" } :=
  ⟨(chunk_document_empty_input defaultCfg true (sLit "\t ") (by decide)).1,
   (chunk_document_empty_input defaultCfg true (sLit "\t ") (by decide)).2 (by decide)⟩

/-! ### C10: response adapter, C5: orchestrator alignment -/

/-- C10: the response-text adapter is total by construction (every exception
inside it is caught and turned into a fixed string), and on the three
documented shapes it returns the stripped string, the stripped `content`
attribute, or the stripped `content` dict entry (falling back to the stripped
`str(...)` rendering when the key is absent). -/
theorem response_adapter_shapes (s rep c : List Char) (entries : List (List Char × PyVal)) :
    extract_response_text (.plainStr s) = pyStrip s ∧
      extract_response_text (.objContent (.str c)) = pyStrip c ∧
      (pyGet entries (sLit "content") = some (.str c) →
        extract_response_text (.dict entries rep) = pyStrip c) ∧
      (pyGet entries (sLit "content") = none →
        extract_response_text (.dict entries rep) = pyStrip rep) := by
  refine ⟨rfl, rfl, fun h => ?_, fun h => ?_⟩ <;>
    simp [extract_response_text, extractResponseInner, h]

/-- Witness for C10 on a dict response with a `content` entry. -/
theorem response_adapter_shapes_witness :
    pyGet [(sLit "content", PyVal.str (sLit " hi "))] (sLit "content") =
        some (PyVal.str (sLit " hi ")) ∧
      extract_response_text
        (.dict [(sLit "content", PyVal.str (sLit " hi "))] (sLit "dictrepr")) =
          pyStrip (sLit " hi ") :=
  ⟨by decide,
   (response_adapter_shapes (sLit "x") (sLit "dictrepr") (sLit " hi ")
      [(sLit "content", PyVal.str (sLit " hi "))]).2.2.1 (by decide)⟩

theorem getD_map_of_lt {α β : Type} (f : α → β) (d : α) (d' : β) :
    ∀ (l : List α) (i : Nat), i < l.length → (l.map f).getD i d' = f (l.getD i d)
  | [], i, h => by simp at h
  | a :: t, 0, _ => rfl
  | a :: t, i + 1, h => by
    simpa using getD_map_of_lt f d d' t i (by simpa using h)

theorem processSequentialGo_length (svc : List Char → Except (List Char) Response)
    (st lang : List Char) :
    ∀ (chunks : List DocumentChunk) (k : Nat),
      (processSequentialGo svc st lang k chunks).length = chunks.length
  | [], _ => rfl
  | c :: rest, k => by
    simpa [processSequentialGo] using processSequentialGo_length svc st lang rest (k + 1)

theorem processSequentialGo_getD (svc : List Char → Except (List Char) Response)
    (st lang : List Char) :
    ∀ (chunks : List DocumentChunk) (k i : Nat), i < chunks.length →
      (processSequentialGo svc st lang k chunks).getD i [] =
        processOneSequential svc st lang (k + i) (chunks.getD i dummyChunk)
  | [], _, i, h => by simp at h
  | c :: rest, k, 0, _ => rfl
  | c :: rest, k, i + 1, h => by
    have ih := processSequentialGo_getD svc st lang rest (k + 1) i (by simpa using h)
    simpa [processSequentialGo, Nat.add_assoc, Nat.add_comm 1 i] using ih

/-- C5: both orchestration modes return exactly one string per input chunk, in
input order: the `i`-th output is the summary of the `i`-th chunk, and a
chunk whose completion call raises yields the error placeholder at that index
instead of an exception or an omission. -/
theorem orchestrator_alignment (chunks : List DocumentChunk)
    (svc : List Char → Except (List Char) Response) (st lang : List Char)
    (i : Nat) (hi : i < chunks.length) :
    (process_parallel chunks svc st lang).length = chunks.length ∧
      (process_sequential chunks svc st lang).length = chunks.length ∧
      (process_parallel chunks svc st lang).getD i [] =
        processOneParallel svc st lang (chunks.getD i dummyChunk) ∧
      (process_sequential chunks svc st lang).getD i [] =
        processOneSequential svc st lang i (chunks.getD i dummyChunk) := by
  refine ⟨by simp [process_parallel], processSequentialGo_length svc st lang chunks 0, ?_, ?_⟩
  · exact getD_map_of_lt _ dummyChunk [] chunks i hi
  · simpa using processSequentialGo_getD svc st lang chunks 0 i hi

/-- Witness for C5: two chunks, the service raising exactly on the second
chunk's prompt; the placeholder lands at index 1 in both modes. -/
theorem orchestrator_alignment_witness :
    1 < [chunkA, chunkB].length ∧
      (process_parallel [chunkA, chunkB] svcFailB (sLit "general") (sLit "vietnamese")).getD 1 [] =
        processOneParallel svcFailB (sLit "general") (sLit "vietnamese")
          ([chunkA, chunkB].getD 1 dummyChunk) ∧
      (process_sequential [chunkA, chunkB] svcFailB (sLit "general") (sLit "vietnamese")).getD 1 [] =
        processOneSequential svcFailB (sLit "general") (sLit "vietnamese") 1
          ([chunkA, chunkB].getD 1 dummyChunk) :=
  ⟨by decide,
   (orchestrator_alignment [chunkA, chunkB] svcFailB (sLit "general") (sLit "vietnamese") 1
      (by decide)).2.2.1,
   (orchestrator_alignment [chunkA, chunkB] svcFailB (sLit "general") (sLit "vietnamese") 1
      (by decide)).2.2.2⟩

/-! ### C6: final-summary aggregation and merge fallback -/

theorem joinSep_cons_ne_nil (sep x : List Char) (xs : List (List Char)) (hx : x ≠ []) :
    joinSep sep (x :: xs) ≠ [] := by
  cases xs with
  | nil => simpa [joinSep] using hx
  | cons y t =>
    simp only [joinSep, ne_eq, List.append_eq_nil]
    exact fun h1 => hx h1.1.1

theorem combinedSummaries_ne_nil (valid : List (List Char)) (h : valid ≠ []) :
    combinedSummaries valid ≠ [] := by
  obtain ⟨v, rest, rfl⟩ := List.exists_cons_of_ne_nil h
  unfold combinedSummaries labelPartsGo
  apply joinSep_cons_ne_nil
  intro hcon
  have hlen := congrArg List.length hcon
  simp only [List.length_append, List.length_nil] at hlen
  have h5 : (sLit "Phần ").length = 5 := by decide
  omega

/-- C6: `create_final_summary` filters error placeholders out before
combining; when every partial is a placeholder it returns the fixed failure
message (for any completion service, i.e. without a merge call); and when the
merge call raises it returns a nonempty string of length at most
`max_length * 5 + 3` that is either the labelled join of the valid partials
or its `max_length * 5`-character truncation followed by `"..."`. -/
theorem final_summary_fallback (summaries : List (List Char))
    (svc : List Char → Except (List Char) Response) (st : List Char) (ml : Nat)
    (lang : List Char) (ol : Nat) :
    ((∀ s ∈ summaries, (sLit "[Lỗi").isPrefixOf s = true) →
        create_final_summary summaries svc st ml lang ol =
          sLit "Không thể tạo tóm tắt do lỗi xử lý.") ∧
      (∀ e, validSummaries summaries ≠ [] →
        svc (create_final_prompt (combinedSummaries (validSummaries summaries)) st ml lang
          (validSummaries summaries).length ol) = .error e →
        create_final_summary summaries svc st ml lang ol ≠ [] ∧
          (create_final_summary summaries svc st ml lang ol).length ≤ ml * 5 + 3 ∧
          (create_final_summary summaries svc st ml lang ol =
              combinedSummaries (validSummaries summaries) ∨
            create_final_summary summaries svc st ml lang ol =
              (combinedSummaries (validSummaries summaries)).take (ml * 5) ++ sLit "...")) := by
  constructor
  · intro hall
    have hnil : validSummaries summaries = [] := by
      apply List.filter_eq_nil_iff.mpr
      intro s hs
      simp [hall s hs]
    unfold create_final_summary
    rw [hnil]
    rfl
  · intro e hne hsvc
    unfold create_final_summary
    rw [if_neg hne, hsvc]
    dsimp only
    split
    · next hgt =>
      have h3 : (sLit "...").length = 3 := by decide
      refine ⟨?_, ?_, Or.inr rfl⟩
      · intro hcon
        have hlen := congrArg List.length hcon
        simp only [List.length_append, List.length_nil] at hlen
        omega
      · have htake : ((combinedSummaries (validSummaries summaries)).take (ml * 5)).length ≤ ml * 5 := by
          simp [List.length_take]
        simp only [List.length_append]
        omega
    · next hle =>
      refine ⟨combinedSummaries_ne_nil _ hne, ?_, Or.inl rfl⟩
      omega

/-- Witness for C6: one placeholder plus one valid partial, merge service
always raising: the fallback is the labelled join of the single valid
partial; and an all-placeholder list yields the fixed failure message. -/
theorem final_summary_fallback_witness :
    create_final_summary [sLit "[Lỗi chunk 0: x]"] svcFailAll (sLit "general") 100 (sLit "vi") 50 =
        sLit "Không thể tạo tóm tắt do lỗi xử lý." ∧
      create_final_summary [sLit "[Lỗi chunk 0: x]", sLit "good"] svcFailAll (sLit "general") 100
          (sLit "vi") 50 ≠ [] ∧
      (create_final_summary [sLit "[Lỗi chunk 0: x]", sLit "good"] svcFailAll (sLit "general") 100
          (sLit "vi") 50).length ≤ 100 * 5 + 3 :=
  ⟨(final_summary_fallback [sLit "[Lỗi chunk 0: x]"] svcFailAll (sLit "general") 100
      (sLit "vi") 50).1 (by decide),
   ((final_summary_fallback [sLit "[Lỗi chunk 0: x]", sLit "good"] svcFailAll (sLit "general") 100
      (sLit "vi") 50).2 (sLit "fail") (by decide) rfl).1,
   ((final_summary_fallback [sLit "[Lỗi chunk 0: x]", sLit "good"] svcFailAll (sLit "general") 100
      (sLit "vi") 50).2 (sLit "fail") (by decide) rfl).2.1⟩

/-! ### C2: the extraction cascade's failure behaviour -/

/-- C2 amended: `extract_text_from_pdf` raises only when the PyPDF2 cascade
produced empty or invalid text and the OCR path produced nothing, and a
successful result never carries empty text. (The OCR-unavailable behaviour
of the original claim is refuted separately: see the counterexample.) -/
theorem extract_pdf_error_only_all_invalid (env : PdfEnv) :
    (∀ m, extract_text_from_pdf env = .error m →
      (try_pypdf_methods env = [] ∨ is_valid_text (try_pypdf_methods env) = false) ∧
        try_ocr_extraction env = []) ∧
      (∀ r, extract_text_from_pdf env = .ok r → r.text ≠ []) := by
  constructor
  · intro m hm
    unfold extract_text_from_pdf at hm
    split at hm
    · cases hm
    · next h1 =>
      split at hm
      · cases hm
      · next h2 =>
        refine ⟨?_, not_ne_iff.mp h2⟩
        cases hval : is_valid_text (try_pypdf_methods env) with
        | false => exact Or.inr rfl
        | true =>
          cases hemp : (try_pypdf_methods env).isEmpty with
          | true => exact Or.inl (List.isEmpty_iff.mp hemp)
          | false => exact absurd (by simp [hval, hemp]) h1
  · intro r hr
    unfold extract_text_from_pdf at hr
    split at hr
    · next h1 =>
      cases hr
      have := (Bool.and_eq_true _ _ |>.mp h1).1
      simpa [List.isEmpty_iff] using this
    · split at hr
      · next h2 => cases hr; exact h2
      · cases hr

/-- Witness for the amended C2 at an environment where everything fails:
the error implies all strategies were invalid. -/
theorem extract_pdf_error_only_witness :
    (try_pypdf_methods pdfEnvAllFail = [] ∨
        is_valid_text (try_pypdf_methods pdfEnvAllFail) = false) ∧
      try_ocr_extraction pdfEnvAllFail = [] :=
  (extract_pdf_error_only_all_invalid pdfEnvAllFail).1
    (generate_error_message pdfEnvAllFail) rfl

/-- C2 is false as stated: with every PyPDF2 method returning empty text, a
scanned image-only PDF, and the OCR runtime unavailable
(`ocrImportAvailable = false`), extraction SUCCEEDS (source `"ocr"`) and the
returned text is the advisory placeholder message mentioning that OCR is
unavailable — the unavailability is not surfaced as an extraction error. -/
theorem extract_pdf_ocr_unavailable_counterexample :
    try_pypdf_methods pdfEnvNoOcr = [] ∧
      pdfEnvNoOcr.ocrImportAvailable = false ∧
      (extract_text_from_pdf pdfEnvNoOcr).toOption.isSome = true ∧
      (extract_text_from_pdf pdfEnvNoOcr).toOption.elim [] ExtractionResult.source =
        sLit "ocr" ∧
      containsSub (sLit "OCR không khả dụng hoặc thất bại.")
        ((extract_text_from_pdf pdfEnvNoOcr).toOption.elim [] ExtractionResult.text) = true := by
  decide

/-! ### Counterexamples for C1 and C7 -/

/-- C1 is false as stated: the input `"ab!  cd"` has stripped length `7` and
triggers chunking under a threshold of `5`, yet the produced chunk content is
`"ab. cd"` — the `'!'` was rewritten to `'.'` and the double space collapsed
by the sentence split/rejoin, no overlap annotation is involved — so the
concatenated contents do not reconstruct the normalized input and the summed
`char_count` is `6 ≠ 7`. -/
theorem chunk_document_partition_counterexample :
    should_chunk_document { LARGE_DOCUMENT_THRESHOLD := 5 }
        (pyStrip (sLit "ab!  cd")) = true ∧
      (chunk_document { LARGE_DOCUMENT_THRESHOLD := 5 } (sLit "ab!  cd") true).toOption =
        some { chunks := [{ content := sLit "ab. cd", chunk_id := 0, start_pos := 0,
                            end_pos := 6, word_count := 2, char_count := 6,
                            context_info := sLit "Simple chunk 1" }],
               total_chunks := 1, total_chars := 6, avg_chunk_size := 6,
               processing_strategy := sLit "simple_chunking" } ∧
      (pyStrip (sLit "ab!  cd")).length = 7 ∧
      sLit "ab. cd" ≠ pyStrip (sLit "ab!  cd") := by
  decide

/-- C7 is false as stated: on a two-chunk run, the second chunk carries no
"continued from previous" note — neither its content nor its prompt contains
the tail of the first chunk's content — and the first chunk's prompt contains
no "continues in next" head of the second chunk. -/
theorem chunk_document_overlap_counterexample :
    (chunk_document { LARGE_DOCUMENT_THRESHOLD := 10, MAX_CHARS_PER_CHUNK := 20 }
        (sLit "aaaaaaaaaaaa. bbbbbbbbbbbb") true).toOption =
      some { chunks := [{ content := sLit "aaaaaaaaaaaa", chunk_id := 0, start_pos := 0,
                          end_pos := 12, word_count := 1, char_count := 12,
                          context_info := sLit "Simple chunk 1" },
                        { content := sLit "bbbbbbbbbbbb", chunk_id := 1, start_pos := 12,
                          end_pos := 24, word_count := 1, char_count := 12,
                          context_info := sLit "Simple chunk 2" }],
             total_chunks := 2, total_chars := 24, avg_chunk_size := 12,
             processing_strategy := sLit "simple_chunking" } ∧
      containsSub (sLit "aaaaaaaaaaaa") (sLit "bbbbbbbbbbbb") = false ∧
      containsSub (sLit "aaaaaaaaaaaa")
        (create_chunk_prompt { content := sLit "bbbbbbbbbbbb", chunk_id := 1, start_pos := 12,
                               end_pos := 24, word_count := 1, char_count := 12,
                               context_info := sLit "Simple chunk 2" }
          (sLit "general") (sLit "vietnamese")) = false ∧
      containsSub (sLit "bbbbbbbbbbbb")
        (create_chunk_prompt { content := sLit "aaaaaaaaaaaa", chunk_id := 0, start_pos := 0,
                               end_pos := 12, word_count := 1, char_count := 12,
                               context_info := sLit "Simple chunk 1" }
          (sLit "general") (sLit "vietnamese")) = false := by
  decide

/-! ### Whitespace-edge lemmas for the chunk loop -/

theorem dropWhile_head?_not (p : Char → Bool) :
    ∀ (l : List Char) (c : Char), (l.dropWhile p).head? = some c → p c = false := by
  intro l
  induction l with
  | nil => intro c h; cases h
  | cons a t ih =>
    intro c h
    rw [List.dropWhile_cons] at h
    split at h
    · exact ih c h
    · next hpa =>
      cases h
      exact Bool.eq_false_iff.mpr hpa

theorem dropTrailingWs_isPre (l : List Char) : dropTrailingWs l <+: l := by
  apply List.reverse_suffix.mp
  rw [dropTrailingWs, List.reverse_reverse]
  exact ⟨l.reverse.takeWhile pyIsSpace, List.takeWhile_append_dropWhile _ _⟩

theorem isPre_head?_eq {l₁ l₂ : List Char} (h : l₁ <+: l₂) (hne : l₁ ≠ []) :
    l₁.head? = l₂.head? := by
  obtain ⟨t, rfl⟩ := h
  cases l₁ with
  | nil => exact absurd rfl hne
  | cons a s => rfl

theorem noEdgeWs_pyStrip (u : List Char) (h : pyStrip u ≠ []) : NoEdgeWs (pyStrip u) := by
  refine ⟨h, ?_, ?_⟩
  · intro c hc
    have hpre : dropTrailingWs (dropLeadingWs u) <+: dropLeadingWs u :=
      dropTrailingWs_isPre _
    have hh : (dropLeadingWs u).head? = some c := by
      rw [← isPre_head?_eq hpre h]
      exact hc
    exact dropWhile_head?_not pyIsSpace u c hh
  · intro c hc
    have hrev : ((dropLeadingWs u).reverse.dropWhile pyIsSpace).head? = some c := by
      have : (pyStrip u).getLast? = ((dropLeadingWs u).reverse.dropWhile pyIsSpace).head? := by
        unfold pyStrip dropTrailingWs
        rw [List.getLast?_reverse]
      rw [← this]
      exact hc
    exact dropWhile_head?_not pyIsSpace _ c hrev

theorem pyStrip_eq_self {l : List Char} (h : NoEdgeWs l) : pyStrip l = l := by
  obtain ⟨hne, hh, hl⟩ := h
  have h1 : dropLeadingWs l = l := by
    cases l with
    | nil => rfl
    | cons a t =>
      have ha : pyIsSpace a = false := hh a rfl
      simp [dropLeadingWs, List.dropWhile_cons, ha]
  have h2 : l.reverse.dropWhile pyIsSpace = l.reverse := by
    cases hr : l.reverse with
    | nil => simp
    | cons b t =>
      have hb : l.getLast? = some b := by
        rw [← List.head?_reverse, hr]; rfl
      have := hl b hb
      rw [List.dropWhile_cons]
      simp [this]
  rw [pyStrip, h1, dropTrailingWs, h2, List.reverse_reverse]

theorem getLast?_append_right (x b : List Char) (hb : b ≠ []) :
    (x ++ b).getLast? = b.getLast? := by
  rw [← List.head?_reverse, ← List.head?_reverse, List.reverse_append]
  apply Eq.symm
  apply isPre_head?_eq
  · exact ⟨x.reverse, rfl⟩
  · simpa using hb

theorem noEdgeWs_append {a b : List Char} (s : List Char) (ha : NoEdgeWs a) (hb : NoEdgeWs b) :
    NoEdgeWs (a ++ s ++ b) := by
  obtain ⟨hane, hah, _⟩ := ha
  obtain ⟨hbne, _, hbl⟩ := hb
  refine ⟨by simp [hane], ?_, ?_⟩
  · intro c hc
    apply hah c
    rw [@isPre_head?_eq a (a ++ s ++ b) ⟨s ++ b, by simp⟩ hane]
    exact hc
  · intro c hc
    apply hbl c
    rw [← getLast?_append_right (a ++ s) b hbne]
    exact hc

theorem structPieces_noEdgeWs (t : List Char) : ∀ p ∈ structPieces t, NoEdgeWs p := by
  intro p hp
  obtain ⟨hmem, hne⟩ := List.mem_filter.mp hp
  obtain ⟨q, _, rfl⟩ := List.mem_map.mp hmem
  exact noEdgeWs_pyStrip q (by simpa using hne)

theorem sentencePieces_noEdgeWs (t : List Char) : ∀ p ∈ sentencePieces t, NoEdgeWs p := by
  intro p hp
  obtain ⟨hmem, hne⟩ := List.mem_filter.mp hp
  obtain ⟨q, _, rfl⟩ := List.mem_map.mp hmem
  exact noEdgeWs_pyStrip q (by simpa using hne)

/-! ### Characterizing the greedy chunk loop -/

theorem joinSep_cons_ne (sep x : List Char) (xs : List (List Char)) (h : xs ≠ []) :
    joinSep sep (x :: xs) = x ++ sep ++ joinSep sep xs := by
  cases xs with
  | nil => exact absurd rfl h
  | cons y t => rfl

theorem groupPieces_nil_eq (maxC : Nat) (sep cur : List Char) :
    groupPieces maxC sep cur [] = if cur = [] then [] else [cur] := rfl

theorem groupPieces_cons_eq (maxC : Nat) (sep cur p : List Char) (t : List (List Char)) :
    groupPieces maxC sep cur (p :: t) =
      if cur.length + p.length > maxC ∧ cur ≠ [] then cur :: groupPieces maxC sep p t
      else groupPieces maxC sep (if cur = [] then p else cur ++ sep ++ p) t := rfl

theorem groupPieces_ne_nil (maxC : Nat) (sep : List Char) :
    ∀ (rest : List (List Char)) (cur : List Char), cur ≠ [] →
      groupPieces maxC sep cur rest ≠ [] := by
  intro rest
  induction rest with
  | nil => intro cur hc; simp [groupPieces_nil_eq, hc]
  | cons p t ih =>
    intro cur hc
    rw [groupPieces_cons_eq]
    by_cases hcond : cur.length + p.length > maxC ∧ cur ≠ []
    · rw [if_pos hcond]; simp
    · rw [if_neg hcond, if_neg hc]
      apply ih
      simp [hc]

theorem chunkLoopGo_nil_eq (maxC : Nat) (sep ctype : List Char) (all : List (List Char))
    (i : Nat) (cur : List Char) (start : Nat) (acc : List DocumentChunk) :
    chunkLoopGo maxC sep ctype all i cur start acc [] =
      if cur = [] then acc else acc ++ [create_chunk cur acc.length start ctype] := rfl

theorem chunkLoopGo_cons_eq (maxC : Nat) (sep ctype : List Char) (all : List (List Char))
    (i : Nat) (cur : List Char) (start : Nat) (acc : List DocumentChunk)
    (p : List Char) (rest : List (List Char)) :
    chunkLoopGo maxC sep ctype all i cur start acc (p :: rest) =
      if cur.length + p.length > maxC ∧ cur ≠ [] then
        chunkLoopGo maxC sep ctype all (i + 1) p (prefixLenSum all i)
          (acc ++ [create_chunk cur acc.length start ctype]) rest
      else
        chunkLoopGo maxC sep ctype all (i + 1)
          (if cur = [] then p else cur ++ sep ++ p)
          (if cur = [] then prefixLenSum all i else start)
          acc rest := rfl

theorem chunkLoopGo_contents (maxC : Nat) (sep ctype : List Char) (all : List (List Char)) :
    ∀ (rest : List (List Char)) (i : Nat) (cur : List Char) (start : Nat)
      (acc : List DocumentChunk), (cur = [] ∨ NoEdgeWs cur) → (∀ p ∈ rest, NoEdgeWs p) →
      (chunkLoopGo maxC sep ctype all i cur start acc rest).map DocumentChunk.content =
        acc.map DocumentChunk.content ++ groupPieces maxC sep cur rest := by
  intro rest
  induction rest with
  | nil =>
    intro i cur start acc hcur _
    by_cases hc : cur = []
    · simp [chunkLoopGo_nil_eq, groupPieces_nil_eq, hc]
    · have hcur' := hcur.resolve_left hc
      simp [chunkLoopGo_nil_eq, groupPieces_nil_eq, hc, create_chunk, pyStrip_eq_self hcur']
  | cons p t ih =>
    intro i cur start acc hcur hrest
    have hp : NoEdgeWs p := hrest p (List.mem_cons_self p t)
    have ht : ∀ q ∈ t, NoEdgeWs q := fun q hq => hrest q (List.mem_cons_of_mem p hq)
    rw [chunkLoopGo_cons_eq, groupPieces_cons_eq]
    by_cases hcond : cur.length + p.length > maxC ∧ cur ≠ []
    · rw [if_pos hcond, if_pos hcond]
      have hcur' := hcur.resolve_left hcond.2
      rw [ih (i + 1) p (prefixLenSum all i) (acc ++ [create_chunk cur acc.length start ctype])
        (Or.inr hp) ht]
      simp [create_chunk, pyStrip_eq_self hcur']
    · rw [if_neg hcond, if_neg hcond]
      by_cases hc : cur = []
      · simpa [hc] using ih (i + 1) p (prefixLenSum all i) acc (Or.inr hp) ht
      · have hcur' := hcur.resolve_left hc
        simpa [hc] using ih (i + 1) (cur ++ sep ++ p) start acc
          (Or.inr (noEdgeWs_append sep hcur' hp)) ht

theorem joinSep_groupPieces (maxC : Nat) (sep : List Char) :
    ∀ (rest : List (List Char)) (cur : List Char), cur ≠ [] → (∀ p ∈ rest, p ≠ []) →
      joinSep sep (groupPieces maxC sep cur rest) = joinSep sep (cur :: rest) := by
  intro rest
  induction rest with
  | nil => intro cur hc _; simp [groupPieces, hc, joinSep]
  | cons p t ih =>
    intro cur hc hall
    have hp : p ≠ [] := hall p (List.mem_cons_self p t)
    have ht : ∀ q ∈ t, q ≠ [] := fun q hq => hall q (List.mem_cons_of_mem p hq)
    by_cases hcond : cur.length + p.length > maxC ∧ cur ≠ []
    · rw [groupPieces_cons_eq, if_pos hcond]
      rw [joinSep_cons_ne sep cur _ (groupPieces_ne_nil maxC sep t p hp), ih p hp ht]
      rfl
    · rw [groupPieces_cons_eq, if_neg hcond, if_neg hc]
      rw [ih (cur ++ sep ++ p) (by simp [hc]) ht]
      cases t with
      | nil => simp [joinSep]
      | cons q s => simp [joinSep, List.append_assoc]

theorem chunkLoopGo_shape (maxC : Nat) (sep ctype : List Char) (all : List (List Char)) :
    ∀ (rest : List (List Char)) (i : Nat) (cur : List Char) (start : Nat)
      (acc : List DocumentChunk),
      (∀ c ∈ acc, ∃ co id st, c = create_chunk co id st ctype) →
      ∀ c ∈ chunkLoopGo maxC sep ctype all i cur start acc rest,
        ∃ co id st, c = create_chunk co id st ctype := by
  intro rest
  induction rest with
  | nil =>
    intro i cur start acc hacc c hc
    rw [chunkLoopGo_nil_eq] at hc
    split at hc
    · exact hacc c hc
    · rcases List.mem_append.mp hc with h | h
      · exact hacc c h
      · exact ⟨cur, acc.length, start, by simpa using h⟩
  | cons p t ih =>
    intro i cur start acc hacc c hc
    rw [chunkLoopGo_cons_eq] at hc
    split at hc
    · refine ih (i + 1) p (prefixLenSum all i) _ ?_ c hc
      intro d hd
      rcases List.mem_append.mp hd with h | h
      · exact hacc d h
      · exact ⟨cur, acc.length, start, by simpa using h⟩
    · exact ih (i + 1) _ _ acc hacc c hc

theorem joinSep_length (sep : List Char) :
    ∀ xs : List (List Char),
      (joinSep sep xs).length = (xs.map List.length).sum + sep.length * (xs.length - 1)
  | [] => by simp [joinSep]
  | [x] => by simp [joinSep]
  | x :: y :: t => by
    have ih := joinSep_length sep (y :: t)
    have hm : sep.length * (t.length + 1) = sep.length * t.length + sep.length :=
      Nat.mul_succ _ _
    simp only [joinSep, List.length_append, List.map_cons, List.sum_cons, List.length_cons,
      Nat.add_sub_cancel] at *
    omega

/-! ### C1 (amended) and C7 (amended) -/

theorem joinSep_groupPieces_start (maxC : Nat) (sep : List Char) (pieces : List (List Char))
    (hpieces : ∀ p ∈ pieces, NoEdgeWs p) :
    joinSep sep (groupPieces maxC sep [] pieces) = joinSep sep pieces := by
  cases pieces with
  | nil => rw [groupPieces_nil_eq]; simp
  | cons q s =>
    rw [groupPieces_cons_eq, if_neg (by simp), if_pos rfl]
    exact joinSep_groupPieces maxC sep s q (hpieces q (List.mem_cons_self q s)).1
      (fun x hx => (hpieces x (List.mem_cons_of_mem q hx)).1)

theorem chunkLoop_join_sum (maxC : Nat) (sep ctype : List Char) (pieces : List (List Char))
    (hpieces : ∀ p ∈ pieces, NoEdgeWs p) :
    joinSep sep ((chunkLoop maxC sep ctype pieces).map DocumentChunk.content) =
        joinSep sep pieces ∧
      ((chunkLoop maxC sep ctype pieces).map DocumentChunk.char_count).sum +
          sep.length * ((chunkLoop maxC sep ctype pieces).length - 1) =
        (joinSep sep pieces).length := by
  have h1 : (chunkLoop maxC sep ctype pieces).map DocumentChunk.content =
      groupPieces maxC sep [] pieces := by
    simpa using chunkLoopGo_contents maxC sep ctype pieces pieces 0 [] 0 [] (Or.inl rfl) hpieces
  have hjoin : joinSep sep ((chunkLoop maxC sep ctype pieces).map DocumentChunk.content) =
      joinSep sep pieces := by
    rw [h1]
    exact joinSep_groupPieces_start maxC sep pieces hpieces
  refine ⟨hjoin, ?_⟩
  have hcc : ∀ c ∈ chunkLoop maxC sep ctype pieces,
      DocumentChunk.char_count c = c.content.length := by
    intro c hc
    obtain ⟨co, id, st, rfl⟩ :=
      chunkLoopGo_shape maxC sep ctype pieces pieces 0 [] 0 [] (by simp) c hc
    rfl
  have hmap : (chunkLoop maxC sep ctype pieces).map DocumentChunk.char_count =
      ((chunkLoop maxC sep ctype pieces).map DocumentChunk.content).map List.length := by
    rw [List.map_map]
    exact List.map_congr_left hcc
  rw [hmap]
  have hlen := joinSep_length sep ((chunkLoop maxC sep ctype pieces).map DocumentChunk.content)
  rw [hjoin, List.length_map] at hlen
  exact hlen.symm

/-- C1 amended: the chunks preserve the split pieces rather than the raw
normalized text. For a structure-aware run, concatenating the chunk contents
in `chunk_id` order with the canonical paragraph joiner `"\n\n"` reconstructs
the `"\n\n"`-join of the stripped nonempty paragraph pieces of the normalized
input (no piece lost or duplicated), and the summed `char_count` equals the
length of that join minus the two-character joiners between chunks; the same
holds for a simple run with the sentence joiner `". "`. The original
separators are normalized away by split/rejoin, so the raw normalized text is
in general not reconstructed and the summed `char_count` differs from its
length. -/
theorem chunk_document_preserves_pieces (cfg : ChunkCfg) (text : List Char) (ps : Bool)
    (r : ChunkingResult) (hr : chunk_document cfg text ps = .ok r) :
    (r.processing_strategy = sLit "structure_aware" →
      joinSep (sLit "\n\n") (r.chunks.map DocumentChunk.content) =
          joinSep (sLit "\n\n") (structPieces (pyStrip text)) ∧
        (r.chunks.map DocumentChunk.char_count).sum + 2 * (r.chunks.length - 1) =
          (joinSep (sLit "\n\n") (structPieces (pyStrip text))).length) ∧
      (r.processing_strategy = sLit "simple_chunking" →
        joinSep (sLit ". ") (r.chunks.map DocumentChunk.content) =
            joinSep (sLit ". ") (sentencePieces (pyStrip text)) ∧
          (r.chunks.map DocumentChunk.char_count).sum + 2 * (r.chunks.length - 1) =
            (joinSep (sLit ". ") (sentencePieces (pyStrip text))).length) := by
  unfold chunk_document at hr
  split at hr
  · cases hr
  · split at hr
    · split at hr
      · -- structure-aware branch
        rw [mkChunkingResult_ok hr]
        constructor
        · intro _
          have h := chunkLoop_join_sum cfg.MAX_CHARS_PER_CHUNK (sLit "\n\n") (sLit "Structure")
            (structPieces (pyStrip text)) (structPieces_noEdgeWs (pyStrip text))
          have h2 : (sLit "\n\n").length = 2 := by decide
          rw [h2] at h
          exact ⟨h.1, h.2⟩
        · intro hcon
          exact absurd (show sLit "structure_aware" = sLit "simple_chunking" from hcon)
            (by decide)
      · -- simple-chunking branch
        rw [mkChunkingResult_ok hr]
        constructor
        · intro hcon
          exact absurd (show sLit "simple_chunking" = sLit "structure_aware" from hcon)
            (by decide)
        · intro _
          have h := chunkLoop_join_sum cfg.MAX_CHARS_PER_CHUNK (sLit ". ") (sLit "Simple")
            (sentencePieces (pyStrip text)) (sentencePieces_noEdgeWs (pyStrip text))
          have h2 : (sLit ". ").length = 2 := by decide
          rw [h2] at h
          exact ⟨h.1, h.2⟩
    · cases hr
      constructor
      · intro hcon
        exact absurd (show sLit "single_chunk" = sLit "structure_aware" from hcon) (by decide)
      · intro hcon
        exact absurd (show sLit "single_chunk" = sLit "simple_chunking" from hcon) (by decide)

/-- Witness for the amended C1 on a concrete two-sentence chunked run. -/
theorem chunk_document_preserves_pieces_witness :
    joinSep (sLit ". ")
        (([{ content := sLit "aaaaaaaaaaaa", chunk_id := 0, start_pos := 0, end_pos := 12,
             word_count := 1, char_count := 12, context_info := sLit "Simple chunk 1" },
           { content := sLit "bbbbbbbbbbbb", chunk_id := 1, start_pos := 12, end_pos := 24,
             word_count := 1, char_count := 12, context_info := sLit "Simple chunk 2" }] :
            List DocumentChunk).map DocumentChunk.content) =
        joinSep (sLit ". ")
          (sentencePieces (pyStrip (sLit "aaaaaaaaaaaa. bbbbbbbbbbbb"))) := by
  have h := (chunk_document_preserves_pieces
    { LARGE_DOCUMENT_THRESHOLD := 10, MAX_CHARS_PER_CHUNK := 20 }
    (sLit "aaaaaaaaaaaa. bbbbbbbbbbbb") true
    { chunks := [{ content := sLit "aaaaaaaaaaaa", chunk_id := 0, start_pos := 0,
                   end_pos := 12, word_count := 1, char_count := 12,
                   context_info := sLit "Simple chunk 1" },
                 { content := sLit "bbbbbbbbbbbb", chunk_id := 1, start_pos := 12,
                   end_pos := 24, word_count := 1, char_count := 12,
                   context_info := sLit "Simple chunk 2" }],
      total_chunks := 2, total_chars := 24, avg_chunk_size := 12,
      processing_strategy := sLit "simple_chunking" } rfl).2 rfl
  exact h.1

/-- C7 amended: `chunk_document` inserts no overlap at all. Every chunk's
`context_info` is only a provenance label (`"Single chunk"` or
`"<Type> chunk <n>"` for its own index), and `char_count` and `word_count`
are computed from the chunk's own content alone; no chunk carries a
"continued from previous" or "continues in next" note (`OVERLAP_SIZE` is
defined but unused). -/
theorem chunk_document_no_overlap (cfg : ChunkCfg) (text : List Char) (ps : Bool)
    (r : ChunkingResult) (hr : chunk_document cfg text ps = .ok r) :
    ∀ c ∈ r.chunks,
      c.char_count = c.content.length ∧
        c.word_count = (pySplitWs c.content).length ∧
        (c.context_info = sLit "Single chunk" ∨
          c.context_info = sLit "Structure" ++ sLit " chunk " ++ natLit (c.chunk_id + 1) ∨
          c.context_info = sLit "Simple" ++ sLit " chunk " ++ natLit (c.chunk_id + 1)) := by
  unfold chunk_document at hr
  split at hr
  · cases hr
  · split at hr
    · split at hr
      · rw [mkChunkingResult_ok hr]
        intro c hc
        replace hc : c ∈ chunk_by_structure cfg (pyStrip text) := hc
        unfold chunk_by_structure chunkLoop at hc
        obtain ⟨co, id, st, rfl⟩ := chunkLoopGo_shape cfg.MAX_CHARS_PER_CHUNK (sLit "\n\n")
          (sLit "Structure") (structPieces (pyStrip text)) (structPieces (pyStrip text))
          0 [] 0 [] (by simp) c hc
        exact ⟨rfl, rfl, Or.inr (Or.inl rfl)⟩
      · rw [mkChunkingResult_ok hr]
        intro c hc
        replace hc : c ∈ chunk_by_sentences cfg (pyStrip text) := hc
        unfold chunk_by_sentences chunkLoop at hc
        obtain ⟨co, id, st, rfl⟩ := chunkLoopGo_shape cfg.MAX_CHARS_PER_CHUNK (sLit ". ")
          (sLit "Simple") (sentencePieces (pyStrip text)) (sentencePieces (pyStrip text))
          0 [] 0 [] (by simp) c hc
        exact ⟨rfl, rfl, Or.inr (Or.inr rfl)⟩
    · cases hr
      intro c hc
      replace hc : c ∈ (singleChunkResult (pyStrip text)).chunks := hc
      simp only [singleChunkResult, List.mem_singleton] at hc
      subst hc
      exact ⟨rfl, rfl, Or.inl rfl⟩

/-- Witness for the amended C7 on a chunk of a concrete structure-aware
run. -/
theorem chunk_document_no_overlap_witness :
    ({ content := sLit "para two here", chunk_id := 1, start_pos := 9, end_pos := 22,
       word_count := 3, char_count := 13,
       context_info := sLit "Structure chunk 2" } : DocumentChunk).char_count =
        (sLit "para two here").length ∧
      ({ content := sLit "para two here", chunk_id := 1, start_pos := 9, end_pos := 22,
         word_count := 3, char_count := 13,
         context_info := sLit "Structure chunk 2" } : DocumentChunk).context_info =
        sLit "Structure" ++ sLit " chunk " ++ natLit 2 := by
  have h := chunk_document_no_overlap
    { LARGE_DOCUMENT_THRESHOLD := 5, MAX_CHARS_PER_CHUNK := 15 }
    (sLit "Head: one\n\npara two here\n\nTail: three") true
    { chunks := [{ content := sLit "Head: one", chunk_id := 0, start_pos := 0,
                   end_pos := 9, word_count := 2, char_count := 9,
                   context_info := sLit "Structure chunk 1" },
                 { content := sLit "para two here", chunk_id := 1, start_pos := 9,
                   end_pos := 22, word_count := 3, char_count := 13,
                   context_info := sLit "Structure chunk 2" },
                 { content := sLit "Tail: three", chunk_id := 2, start_pos := 22,
                   end_pos := 33, word_count := 2, char_count := 11,
                   context_info := sLit "Structure chunk 3" }],
      total_chunks := 3, total_chars := 33, avg_chunk_size := 11,
      processing_strategy := sLit "structure_aware" } rfl
    { content := sLit "para two here", chunk_id := 1, start_pos := 9, end_pos := 22,
      word_count := 3, char_count := 13, context_info := sLit "Structure chunk 2" }
    (by decide)
  rcases h with ⟨h1, _, hctx⟩
  refine ⟨h1, ?_⟩
  rcases hctx with h | h | h
  · exact absurd h (by decide)
  · exact h
  · exact absurd h (by decide)

/-! ### C4: the validity heuristic -/

theorem countOccursGo_cons_eq (p : List Char) (f : Nat) (c : Char) (rest : List Char) :
    countOccursGo p (f + 1) (c :: rest) =
      if p.isPrefixOf (c :: rest) then 1 + countOccursGo p f ((c :: rest).drop p.length)
      else countOccursGo p f rest := rfl

theorem countOccurs_nil (p : List Char) (hp : p ≠ []) : countOccurs p [] = 0 := by
  simp [countOccurs, hp, countOccursGo]

theorem isPrefixOf_length_le :
    ∀ (p s : List Char), p.isPrefixOf s = true → p.length ≤ s.length
  | [], s, _ => by simp
  | a :: q, [], h => by cases h
  | a :: q, b :: t, h => by
    rw [List.isPrefixOf_cons₂] at h
    have := isPrefixOf_length_le q t (Bool.and_eq_true _ _ |>.mp h).2
    simpa using this

theorem length_pos_of_ne_nil {p : List Char} (hp : p ≠ []) : 1 ≤ p.length := by
  cases p with
  | nil => exact absurd rfl hp
  | cons a q => simp

theorem countOccursGo_fuel_irrel (p : List Char) (hp : p ≠ []) :
    ∀ (n : Nat) (s : List Char), s.length ≤ n → ∀ (f g : Nat), s.length < f → s.length < g →
      countOccursGo p f s = countOccursGo p g s := by
  intro n
  induction n with
  | zero =>
    intro s hs f g hf hg
    have hse : s = [] := List.eq_nil_of_length_eq_zero (Nat.le_zero.mp hs)
    subst hse
    cases f with
    | zero => omega
    | succ f' =>
      cases g with
      | zero => omega
      | succ g' => rfl
  | succ n ihn =>
    intro s hs f g hf hg
    cases s with
    | nil =>
      cases f with
      | zero => omega
      | succ f' =>
        cases g with
        | zero => omega
        | succ g' => rfl
    | cons c rest =>
      cases f with
      | zero => omega
      | succ f' =>
        cases g with
        | zero => omega
        | succ g' =>
          rw [countOccursGo_cons_eq, countOccursGo_cons_eq]
          have h1 := length_pos_of_ne_nil hp
          by_cases hpre : p.isPrefixOf (c :: rest) = true
          · rw [if_pos hpre, if_pos hpre]
            congr 1
            apply ihn ((c :: rest).drop p.length)
            · rw [List.length_drop]
              simp only [List.length_cons] at hs ⊢
              omega
            · rw [List.length_drop]
              simp only [List.length_cons] at hf ⊢
              omega
            · rw [List.length_drop]
              simp only [List.length_cons] at hg ⊢
              omega
          · rw [if_neg hpre, if_neg hpre]
            apply ihn rest
            · simp only [List.length_cons] at hs; omega
            · simp only [List.length_cons] at hf; omega
            · simp only [List.length_cons] at hg; omega

theorem countOccursGo_fuel (p : List Char) (hp : p ≠ []) (f : Nat) (s : List Char)
    (h : s.length < f) : countOccursGo p f s = countOccurs p s := by
  have : countOccurs p s = countOccursGo p (s.length + 1) s := by
    simp [countOccurs, hp]
  rw [this]
  exact countOccursGo_fuel_irrel p hp s.length s (Nat.le_refl _) f (s.length + 1) h
    (Nat.lt_succ_self _)

theorem countOccurs_cons (p : List Char) (hp : p ≠ []) (c : Char) (rest : List Char) :
    countOccurs p (c :: rest) =
      if p.isPrefixOf (c :: rest) then 1 + countOccurs p ((c :: rest).drop p.length)
      else countOccurs p rest := by
  have h : countOccurs p (c :: rest) = countOccursGo p ((c :: rest).length + 1) (c :: rest) := by
    simp [countOccurs, hp]
  rw [h, List.length_cons, countOccursGo_cons_eq]
  by_cases hpre : p.isPrefixOf (c :: rest) = true
  · rw [if_pos hpre, if_pos hpre]
    have h1 : 1 ≤ p.length := by
      cases p with
      | nil => exact absurd rfl hp
      | cons a q => simp
    have : ((c :: rest).drop p.length).length < rest.length + 1 := by
      rw [List.length_drop]
      simp only [List.length_cons]
      omega
    rw [countOccursGo_fuel p hp (rest.length + 1) _ this]
  · rw [if_neg hpre, if_neg hpre]
    rw [countOccursGo_fuel p hp (rest.length + 1) rest (by omega)]

theorem not_isPrefixOf_ws_head (p : List Char) (hp : p ≠ [])
    (hwf : ∀ x ∈ p, pyIsSpace x = false) (c : Char) (hc : pyIsSpace c = true)
    (l : List Char) : p.isPrefixOf (c :: l) = false := by
  cases p with
  | nil => exact absurd rfl hp
  | cons a q =>
    have ha : pyIsSpace a = false := hwf a (List.mem_cons_self a q)
    have hne : a ≠ c := fun h => by rw [h, hc] at ha; cases ha
    rw [List.isPrefixOf_cons₂]
    simp [beq_eq_false_iff_ne.mpr hne]

theorem countOccurs_dropLeadingWs (p : List Char) (hp : p ≠ [])
    (hwf : ∀ x ∈ p, pyIsSpace x = false) (u : List Char) :
    countOccurs p (u.dropWhile pyIsSpace) = countOccurs p u := by
  induction u with
  | nil => simp
  | cons c rest ih =>
    rw [List.dropWhile_cons]
    split
    · next hc =>
      rw [ih, countOccurs_cons p hp c rest, not_isPrefixOf_ws_head p hp hwf c hc rest]
      simp
    · rfl

theorem countOccurs_allWs (p : List Char) (hp : p ≠ [])
    (hwf : ∀ x ∈ p, pyIsSpace x = false) :
    ∀ ws : List Char, (∀ c ∈ ws, pyIsSpace c = true) → countOccurs p ws = 0 := by
  intro ws
  induction ws with
  | nil => intro _; exact countOccurs_nil p hp
  | cons w t ih =>
    intro hws
    rw [countOccurs_cons p hp w t,
      not_isPrefixOf_ws_head p hp hwf w (hws w (List.mem_cons_self w t)) t]
    simpa using ih (fun c hc => hws c (List.mem_cons_of_mem w hc))

theorem isPrefixOf_append_ws (ws : List Char) (hws : ∀ c ∈ ws, pyIsSpace c = true) :
    ∀ (p s : List Char), (∀ x ∈ p, pyIsSpace x = false) →
      p.isPrefixOf (s ++ ws) = p.isPrefixOf s := by
  intro p
  induction p with
  | nil => intro s _; simp [List.isPrefixOf_nil_left]
  | cons a q ih =>
    intro s hwf
    cases s with
    | nil =>
      cases hw : ws with
      | nil => simp
      | cons w t =>
        have hpw : (a :: q).isPrefixOf (w :: t) = false :=
          not_isPrefixOf_ws_head (a :: q) (by simp) hwf w
            (hws w (by rw [hw]; exact List.mem_cons_self w t)) t
        simp [hw, hpw]
    | cons b t =>
      rw [List.cons_append, List.isPrefixOf_cons₂, List.isPrefixOf_cons₂,
        ih t (fun x hx => hwf x (List.mem_cons_of_mem a hx))]

theorem countOccurs_append_ws (p : List Char) (hp : p ≠ [])
    (hwf : ∀ x ∈ p, pyIsSpace x = false) (ws : List Char)
    (hws : ∀ c ∈ ws, pyIsSpace c = true) :
    ∀ s : List Char, countOccurs p (s ++ ws) = countOccurs p s := by
  have key : ∀ (n : Nat) (s : List Char), s.length ≤ n →
      countOccurs p (s ++ ws) = countOccurs p s := by
    intro n
    induction n with
    | zero =>
      intro s hs
      have : s = [] := List.eq_nil_of_length_eq_zero (Nat.le_zero.mp hs)
      subst this
      rw [List.nil_append, countOccurs_allWs p hp hwf ws hws, countOccurs_nil p hp]
    | succ n ihn =>
      intro s hs
      cases s with
      | nil =>
        rw [List.nil_append, countOccurs_allWs p hp hwf ws hws, countOccurs_nil p hp]
      | cons c rest =>
        rw [List.cons_append, countOccurs_cons p hp c (rest ++ ws), countOccurs_cons p hp c rest]
        have hpre : p.isPrefixOf (c :: (rest ++ ws)) = p.isPrefixOf (c :: rest) :=
          isPrefixOf_append_ws ws hws p (c :: rest) hwf
        rw [hpre]
        by_cases hcase : p.isPrefixOf (c :: rest) = true
        · rw [if_pos hcase, if_pos hcase]
          have hple : p.length ≤ (c :: rest).length := isPrefixOf_length_le p (c :: rest) hcase
          have hdrop : (c :: (rest ++ ws)).drop p.length = ((c :: rest).drop p.length) ++ ws := by
            show ((c :: rest) ++ ws).drop p.length = ((c :: rest).drop p.length) ++ ws
            rw [List.drop_append_eq_append_drop, Nat.sub_eq_zero_of_le hple, List.drop_zero]
          rw [hdrop]
          have h1 : 1 ≤ p.length := by
            cases p with
            | nil => exact absurd rfl hp
            | cons a q => simp
          have : ((c :: rest).drop p.length).length ≤ n := by
            rw [List.length_drop]
            simp only [List.length_cons] at hs ⊢
            omega
          rw [ihn _ this]
        · rw [if_neg hcase, if_neg hcase]
          have : rest.length ≤ n := by
            simp only [List.length_cons] at hs
            omega
          exact ihn rest this
  intro s
  exact key s.length s (Nat.le_refl _)

theorem countOccurs_pyStrip (p : List Char) (hp : p ≠ [])
    (hwf : ∀ x ∈ p, pyIsSpace x = false) (u : List Char) :
    countOccurs p (pyStrip u) = countOccurs p u := by
  have hdecomp : dropLeadingWs u =
      dropTrailingWs (dropLeadingWs u) ++ ((dropLeadingWs u).reverse.takeWhile pyIsSpace).reverse := by
    conv_lhs =>
      rw [← List.reverse_reverse (dropLeadingWs u),
        ← List.takeWhile_append_dropWhile pyIsSpace (dropLeadingWs u).reverse]
    rw [List.reverse_append]
    rfl
  have hwsTail : ∀ c ∈ ((dropLeadingWs u).reverse.takeWhile pyIsSpace).reverse,
      pyIsSpace c = true := by
    intro c hc
    exact List.mem_takeWhile_imp (List.mem_reverse.mp hc)
  calc countOccurs p (pyStrip u)
      = countOccurs p (dropTrailingWs (dropLeadingWs u) ++
          ((dropLeadingWs u).reverse.takeWhile pyIsSpace).reverse) :=
        (countOccurs_append_ws p hp hwf _ hwsTail _).symm
    _ = countOccurs p (dropLeadingWs u) := by rw [← hdecomp]
    _ = countOccurs p u := countOccurs_dropLeadingWs p hp hwf u

theorem weightedMetadataCount_pyStrip (u : List Char) :
    weightedMetadataCount (pyStrip u) = weightedMetadataCount u := by
  unfold weightedMetadataCount
  congr 1
  apply List.map_congr_left
  intro p hp
  have hprop : p ≠ [] ∧ ∀ x ∈ p, pyIsSpace x = false := by
    have hall : ∀ q ∈ metadataPatterns, q ≠ [] ∧ ∀ x ∈ q, pyIsSpace x = false := by decide
    exact hall p hp
  rw [countOccurs_pyStrip p hprop.1 hprop.2 u]

/-- C4: the extraction-validity predicate accepts a string iff its stripped
length strictly exceeds 100 and the string is not metadata-only, where
metadata-only means the sum over the PDF-internals tokens of (occurrence
count × token length), computed on the lowercased text, exceeds 70% of the
total text length (float threshold modelled exactly over the rationals). -/
theorem is_valid_text_eq_spec (text : List Char) :
    is_valid_text text = is_valid_text_spec text := by
  cases text with
  | nil => rfl
  | cons c rest =>
    unfold is_valid_text is_valid_text_spec is_metadata_only MIN_TEXT_LENGTH
    rw [if_neg (List.cons_ne_nil c rest)]
    rw [weightedMetadataCount_pyStrip (pyLower (c :: rest))]
    simp [List.isEmpty]

/-- Witness for C4 at a metadata-heavy concrete string (rejected by both
sides) — the instantiated equivalence plus the concrete value. -/
theorem is_valid_text_eq_spec_witness :
    is_valid_text (sLit "stream endstream obj endobj /type /length stream endstream obj endobj /type /length stream endstream obj endobj /type /length ") =
        is_valid_text_spec (sLit "stream endstream obj endobj /type /length stream endstream obj endobj /type /length stream endstream obj endobj /type /length ") ∧
      is_valid_text_spec (sLit "stream endstream obj endobj /type /length stream endstream obj endobj /type /length stream endstream obj endobj /type /length ") = false :=
  ⟨is_valid_text_eq_spec _, by decide⟩
